import Mathlib

/-!
Verification of the console todo application's Task Store and Persistence
Adapter (feature `001-console-todo-app`).  The repository snapshot ships the
application's test script (`console-app/test_manual.sh`), its test report
(`console-app/TEST-RESULTS.md`) and its README, but not the Python modules
`src/models.py`, `src/storage.py`, `src/commands.py` themselves; every
definition below is therefore modelled from the specification's description
of those modules (spec §3 data model, §4.1 Task Store operations, §4.2
Persistence Adapter, §4.3 Command Layer).
-/

namespace Todo

/-- Modelled from the spec: the `status` enum of `src/models.py`
(spec §3: "enum {Pending, Completed}; starts Pending"). -/
inductive Status where
  | Pending
  | Completed
deriving DecidableEq, Repr

/-- Modelled from the spec: the `Task` record of `src/models.py` (spec §3).
Timestamps are kept as their persisted `YYYY-MM-DD HH:MM:SS` strings;
`completed_at` is absent until the task is completed. -/
structure Task where
  id : Nat
  title : String
  description : String
  status : Status
  created_at : String
  completed_at : Option String
deriving DecidableEq, Repr

/-- Modelled from the spec: the `TaskCollection` of `src/models.py`
(spec §3: ordered sequence of `Task` in insertion order plus a `next_id`
counter). -/
structure TaskCollection where
  tasks : List Task
  next_id : Nat
deriving DecidableEq, Repr

/-- The empty collection with `next_id = 1` (spec §4.2 `load`, spec §4.1
`clear`). -/
def emptyCollection : TaskCollection := ⟨[], 1⟩

/-- Modelled from the spec: the error taxonomy of §7 (`StorageCorruptionError`
is recovered inside `load` and never escapes, so only the two surfaced kinds
appear). -/
inductive TodoError where
  | validationError
  | notFoundError
deriving DecidableEq, Repr

/-- Whether a task with the given id exists in the collection. -/
def hasId (c : TaskCollection) (i : Nat) : Bool :=
  c.tasks.any (fun t => t.id == i)

/-- Modelled from the spec: the trimming applied to titles before the
emptiness check (§4.1 "empty after trimming", Python `str.strip`): leading
and trailing whitespace is removed.  Defined over the character list so it
evaluates inside the kernel. -/
def strip (s : String) : String :=
  ⟨((s.data.dropWhile Char.isWhitespace).reverse.dropWhile
      Char.isWhitespace).reverse⟩

/-- Modelled from the spec: `add(title, description)` of §4.1.  Fails with
`ValidationError` if the title is empty after trimming; otherwise assigns
`id = next_id`, increments `next_id`, sets `created_at` to the supplied
current time, status `Pending`, and appends at the end.  The current time is
passed in explicitly (`now`). -/
def add (c : TaskCollection) (title description now : String) :
    Except TodoError (Task × TaskCollection) :=
  if strip title = "" then .error .validationError
  else
    let t : Task := ⟨c.next_id, title, description, .Pending, now, none⟩
    .ok (t, ⟨c.tasks ++ [t], c.next_id + 1⟩)

/-- Modelled from the spec: `complete(id)` of §4.1.  Fails with
`NotFoundError` if the id is absent; otherwise sets status to `Completed`
and `completed_at` to the current time, with no check of the previous
status (re-completing refreshes `completed_at`). -/
def complete (c : TaskCollection) (i : Nat) (now : String) :
    Except TodoError TaskCollection :=
  if hasId c i then
    .ok ⟨c.tasks.map (fun t =>
          if t.id == i then { t with status := .Completed, completed_at := some now }
          else t),
        c.next_id⟩
  else .error .notFoundError

/-- Applies an `update` to a single task: only the supplied fields change
(spec §4.1: "Only provided fields change"). -/
def applyUpdate (t : Task) (titleOpt descOpt : Option String) : Task :=
  { t with title := titleOpt.getD t.title,
           description := descOpt.getD t.description }

/-- Modelled from the spec: `update(id, title?, description?)` of §4.1.
Fails with `NotFoundError` if the id is absent, then with `ValidationError`
if a supplied title is empty; otherwise only the provided fields change and
`id`, `created_at`, `status` (and `completed_at`) are untouched. -/
def update (c : TaskCollection) (i : Nat) (titleOpt descOpt : Option String) :
    Except TodoError TaskCollection :=
  if hasId c i then
    if titleOpt = some "" then .error .validationError
    else
      .ok ⟨c.tasks.map (fun t =>
            if t.id == i then applyUpdate t titleOpt descOpt else t),
          c.next_id⟩
  else .error .notFoundError

/-- Modelled from the spec: `delete(id)` of §4.1.  Fails with
`NotFoundError` if the id is absent; otherwise removes the task and alters
neither `next_id` nor any other task. -/
def delete (c : TaskCollection) (i : Nat) : Except TodoError TaskCollection :=
  if hasId c i then
    .ok ⟨c.tasks.filter (fun t => t.id != i), c.next_id⟩
  else .error .notFoundError

/-- Modelled from the spec: `clear()` of §4.1.  Removes all tasks, resets
`next_id` to 1, returns the number removed. -/
def clear (c : TaskCollection) : Nat × TaskCollection :=
  (c.tasks.length, emptyCollection)

/-- Modelled from the spec: one user-facing command of the Command Layer
(§4.3, §6), with the current time passed in where the operation stamps it. -/
inductive Op where
  | add (title description now : String)
  | complete (i : Nat) (now : String)
  | update (i : Nat) (titleOpt descOpt : Option String)
  | delete (i : Nat)
  | clear
deriving DecidableEq, Repr

/-- Modelled from the spec: the Command Layer's effect on the Task Store
(§4.3, §7): a failing operation reports its error and leaves the collection
unchanged; a succeeding one installs the mutated collection. -/
def step (c : TaskCollection) : Op → TaskCollection
  | .add t d now =>
      match add c t d now with
      | .ok (_, c2) => c2
      | .error _ => c
  | .complete i now =>
      match complete c i now with
      | .ok c2 => c2
      | .error _ => c
  | .update i titleOpt descOpt =>
      match update c i titleOpt descOpt with
      | .ok c2 => c2
      | .error _ => c
  | .delete i =>
      match delete c i with
      | .ok c2 => c2
      | .error _ => c
  | .clear => (clear c).2

/-- Runs a command sequence while recording the ids handed out by successful
`add` calls since the most recent `clear` (the accumulator is reset exactly
when `clear` runs, matching "since last clear" in the spec §3 invariants). -/
def runTrace : TaskCollection → List Nat → List Op → TaskCollection × List Nat
  | c, acc, [] => (c, acc)
  | c, acc, .add t d now :: ops =>
      match add c t d now with
      | .ok (tk, c2) => runTrace c2 (acc ++ [tk.id]) ops
      | .error _ => runTrace c acc ops
  | c, acc, .complete i now :: ops => runTrace (step c (.complete i now)) acc ops
  | c, acc, .update i t d :: ops => runTrace (step c (.update i t d)) acc ops
  | c, acc, .delete i :: ops => runTrace (step c (.delete i)) acc ops
  | c, _, .clear :: ops => runTrace (step c .clear) [] ops

/-- Renders a status into its persisted JSON string (spec §6 file format). -/
def statusToString : Status → String
  | .Pending => "Pending"
  | .Completed => "Completed"

/-- Reads a persisted status string back; anything else is invalid data. -/
def statusOfString (s : String) : Option Status :=
  if s = "Pending" then some .Pending
  else if s = "Completed" then some .Completed
  else none

/-- Modelled from the spec: one task object of the persisted JSON document
(spec §6), with `status` as its literal string and `completed_at` as a
nullable string. -/
structure TaskDoc where
  id : Nat
  title : String
  description : String
  status : String
  created_at : String
  completed_at : Option String
deriving DecidableEq, Repr

/-- Modelled from the spec: the persisted JSON document of §6
(`\x7b"next_id": ..., "tasks": [...]\x7d`).  The textual bytes written by
the adapter are a deterministic rendering of this structure (`json.dumps`
with `indent=2`, per TEST-RESULTS.md Principle I), so equality of documents
is equality of the persisted bytes. -/
structure Doc where
  next_id : Nat
  tasks : List TaskDoc
deriving DecidableEq, Repr

/-- Serializes one task for persistence. -/
def taskToDoc (t : Task) : TaskDoc :=
  ⟨t.id, t.title, t.description, statusToString t.status, t.created_at, t.completed_at⟩

/-- Modelled from the spec: `save(collection)` of §4.2 — serializes the full
collection (the atomic write-temp-then-rename mechanics live below the level
of this model; what reaches the disk is exactly this document). -/
def save (c : TaskCollection) : Doc :=
  ⟨c.next_id, c.tasks.map taskToDoc⟩

/-- Deserializes one persisted task; fails if its status string is invalid. -/
def taskOfDoc (d : TaskDoc) : Option Task :=
  (statusOfString d.status).map (fun st =>
    ⟨d.id, d.title, d.description, st, d.created_at, d.completed_at⟩)

/-- Deserializes a persisted document into a collection; fails if any task
fails to deserialize. -/
def parseTasks : List TaskDoc → Option (List Task)
  | [] => some []
  | d :: ds =>
      match taskOfDoc d, parseTasks ds with
      | some t, some ts => some (t :: ts)
      | _, _ => none

/-- Parses a whole persisted document. -/
def parseDoc (d : Doc) : Option TaskCollection :=
  (parseTasks d.tasks).map (fun ts => ⟨ts, d.next_id⟩)

/-- Modelled from the spec: the state of the storage file as `load` finds it
(§4.2): absent, present but not valid structured data, or a structured
document. -/
inductive StorageFile where
  | absent
  | invalid
  | file (d : Doc)
deriving DecidableEq, Repr

/-- The outcome of `load`: the collection handed to the application, and
whether the adapter moved a bad file to the `.backup` path. -/
structure LoadResult where
  collection : TaskCollection
  backupCreated : Bool
deriving DecidableEq, Repr

/-- Modelled from the spec: `load()` of §4.2.  An absent file yields an
empty collection with `next_id = 1` (not an error); a file that fails to
parse as valid structured data is moved to the `.backup` path and an empty
collection is returned; a valid document is deserialized.  The function is
total: no case throws. -/
def load : StorageFile → LoadResult
  | .absent => ⟨emptyCollection, false⟩
  | .invalid => ⟨emptyCollection, true⟩
  | .file d =>
      match parseDoc d with
      | some c => ⟨c, false⟩
      | none => ⟨emptyCollection, true⟩

/-- One `save(load(f))` pass over the persisted state: what the adapter
writes back after loading storage state `f`. -/
def saveLoad (f : StorageFile) : Doc :=
  save (load f).collection

/-- A concrete already-completed task, used to exercise the operations. -/
def doneTask : Task :=
  ⟨1, "Ship release", "cut the tag", .Completed, "2026-01-01 09:00:00",
   some "2026-01-03 18:00:00"⟩

/-- A concrete pending task. -/
def pendingTask : Task :=
  ⟨2, "Write notes", "for the release", .Pending, "2026-01-02 10:30:00", none⟩

/-- A concrete two-task collection whose counter has moved past both ids. -/
def sampleColl : TaskCollection := ⟨[doneTask, pendingTask], 3⟩

/-- A concrete one-task collection holding only the completed task. -/
def doneColl : TaskCollection := ⟨[doneTask], 2⟩

end Todo

namespace Todo

/-- Helper: a successful `add` hands out exactly `next_id`, bumps the
counter by one, and appends the new task at the end. -/
theorem add_ok (c : TaskCollection) (t d now : String) (tk : Task)
    (c2 : TaskCollection) (h : add c t d now = .ok (tk, c2)) :
    tk.id = c.next_id ∧ c2.next_id = c.next_id + 1
      ∧ c2.tasks = c.tasks ++ [tk] := by
  unfold add at h
  split at h
  · exact absurd h (by simp)
  · simp only [Except.ok.injEq, Prod.mk.injEq] at h
    obtain ⟨h1, h2⟩ := h
    subst h1
    subst h2
    exact ⟨rfl, rfl, rfl⟩

/-- Helper: `complete` never changes the id counter. -/
theorem complete_next_id (c : TaskCollection) (i : Nat) (now : String)
    (c2 : TaskCollection) (h : complete c i now = .ok c2) :
    c2.next_id = c.next_id := by
  unfold complete at h
  split at h
  · simp only [Except.ok.injEq] at h
    subst h
    rfl
  · exact absurd h (by simp)

/-- Helper: `update` never changes the id counter. -/
theorem update_next_id (c : TaskCollection) (i : Nat)
    (titleOpt descOpt : Option String) (c2 : TaskCollection)
    (h : update c i titleOpt descOpt = .ok c2) :
    c2.next_id = c.next_id := by
  unfold update at h
  split at h
  · split at h
    · exact absurd h (by simp)
    · simp only [Except.ok.injEq] at h
      subst h
      rfl
  · exact absurd h (by simp)

/-- Helper: `delete` never changes the id counter. -/
theorem delete_next_id (c : TaskCollection) (i : Nat) (c2 : TaskCollection)
    (h : delete c i = .ok c2) : c2.next_id = c.next_id := by
  unfold delete at h
  split at h
  · simp only [Except.ok.injEq] at h
    subst h
    rfl
  · exact absurd h (by simp)

/-- Helper: a `complete` command never changes the id counter, whether it
succeeds or fails. -/
theorem step_complete_next_id (c : TaskCollection) (i : Nat) (now : String) :
    (step c (Op.complete i now)).next_id = c.next_id := by
  cases h : complete c i now with
  | ok c2 => simpa [step, h] using complete_next_id c i now c2 h
  | error e => simp [step, h]

/-- Helper: an `update` command never changes the id counter, whether it
succeeds or fails. -/
theorem step_update_next_id (c : TaskCollection) (i : Nat)
    (titleOpt descOpt : Option String) :
    (step c (Op.update i titleOpt descOpt)).next_id = c.next_id := by
  cases h : update c i titleOpt descOpt with
  | ok c2 => simpa [step, h] using update_next_id c i titleOpt descOpt c2 h
  | error e => simp [step, h]

/-- Helper: a `delete` command never changes the id counter, whether it
succeeds or fails. -/
theorem step_delete_next_id (c : TaskCollection) (i : Nat) :
    (step c (Op.delete i)).next_id = c.next_id := by
  cases h : delete c i with
  | ok c2 => simpa [step, h] using delete_next_id c i c2 h
  | error e => simp [step, h]

/-- Helper: an `add` command never lowers the id counter. -/
theorem step_add_next_id (c : TaskCollection) (t d now : String) :
    c.next_id ≤ (step c (Op.add t d now)).next_id := by
  cases h : add c t d now with
  | ok p =>
      obtain ⟨tk, c2⟩ := p
      have := (add_ok c t d now tk c2 h).2.1
      simp [step, h, this]
  | error e => simp [step, h]

/-- Helper: deserialization inverts serialization on every task list. -/
theorem parseTasks_map (ts : List Task) :
    parseTasks (ts.map taskToDoc) = some ts := by
  induction ts with
  | nil => rfl
  | cons t ts ih =>
      have ht : taskOfDoc (taskToDoc t) = some t := by
        cases t with
        | mk id title description status created_at completed_at =>
            cases status <;> rfl
      simp [parseTasks, ht, ih]

/-- Helper: parsing a saved document recovers the collection exactly. -/
theorem parseDoc_save (c : TaskCollection) : parseDoc (save c) = some c := by
  cases c with
  | mk tasks next_id => simp [parseDoc, save, parseTasks_map]

/-- Helper: loading a file that holds a saved collection yields that
collection back, with no backup. -/
theorem load_save (c : TaskCollection) :
    load (StorageFile.file (save c)) = ⟨c, false⟩ := by
  simp [load, parseDoc_save]

/-- Claim C4: `load` returns an empty collection with `next_id = 1` when the
storage file is absent, and when the file exists but does not parse as valid
structured data it moves the bad file to the `.backup` path and returns an
empty collection with `next_id = 1`.  `load` is a total function, so neither
case throws. -/
theorem c4_load_missing_and_corrupt :
    load StorageFile.absent = ⟨emptyCollection, false⟩
    ∧ load StorageFile.invalid = ⟨emptyCollection, true⟩
    ∧ emptyCollection.tasks = []
    ∧ emptyCollection.next_id = 1 :=
  ⟨rfl, rfl, rfl, rfl⟩

/-- Claim C5: for every persisted state, a second `save(load())` pass writes
back exactly the document the first pass wrote: serialization round-trips
idempotently, so the persisted bytes (a deterministic rendering of the
document) are identical. -/
theorem c5_save_load_idempotent (f : StorageFile) :
    saveLoad (StorageFile.file (saveLoad f)) = saveLoad f := by
  unfold saveLoad
  rw [load_save]

/-- Claim C7: `complete(id)` on a present id succeeds, sets the task's
status to `Completed` and its `completed_at` to the supplied current time,
with no check of the previous status — so re-completing an already
completed task is allowed and refreshes `completed_at` rather than failing
or leaving the old stamp. -/
theorem c7_complete_refreshes (c : TaskCollection) (i : Nat) (now : String)
    (h : hasId c i = true) :
    complete c i now
      = .ok ⟨c.tasks.map (fun t =>
              if t.id == i then
                { t with status := Status.Completed, completed_at := some now }
              else t),
            c.next_id⟩ := by
  simp [complete, h]

/-- Witness for C7: re-completing `doneTask` (already `Completed`, stamped
`2026-01-03 18:00:00`) succeeds and refreshes `completed_at` to the new
time. -/
theorem c7_witness :
    hasId doneColl 1 = true
    ∧ complete doneColl 1 "2026-02-05 08:00:00"
        = .ok ⟨[⟨1, "Ship release", "cut the tag", .Completed,
                 "2026-01-01 09:00:00", some "2026-02-05 08:00:00"⟩], 2⟩ :=
  ⟨rfl, c7_complete_refreshes doneColl 1 "2026-02-05 08:00:00" rfl⟩

/-- Claim C8: `add` with a title that is empty after trimming fails with
`ValidationError`, and the command leaves the collection — tasks and
`next_id` alike — unchanged. -/
theorem c8_add_empty_title (c : TaskCollection) (title d now : String)
    (h : strip title = "") :
    add c title d now = .error .validationError
    ∧ step c (Op.add title d now) = c := by
  refine ⟨?_, ?_⟩
  · simp [add, h]
  · simp [step, add, h]

/-- Witness for C8: adding a whitespace-only title to `sampleColl` fails
with `ValidationError` and leaves the collection untouched. -/
theorem c8_witness :
    strip "  " = ""
    ∧ (add sampleColl "  " "desc" "2026-02-05 08:00:00"
          = .error .validationError
       ∧ step sampleColl (Op.add "  " "desc" "2026-02-05 08:00:00")
          = sampleColl) :=
  ⟨by decide, c8_add_empty_title sampleColl "  " "desc" "2026-02-05 08:00:00" (by decide)⟩

/-- Claim C9: `complete`, `update` and `delete` fail with `NotFoundError`
exactly when no task with the given id exists; in particular `complete 999`
on the empty collection fails with `NotFoundError`. -/
theorem c9_notfound_iff (c : TaskCollection) (i : Nat) (now : String)
    (titleOpt descOpt : Option String) :
    (complete c i now = .error .notFoundError ↔ hasId c i = false)
    ∧ (update c i titleOpt descOpt = .error .notFoundError ↔ hasId c i = false)
    ∧ (delete c i = .error .notFoundError ↔ hasId c i = false)
    ∧ complete emptyCollection 999 now = .error .notFoundError := by
  by_cases h : hasId c i
  · refine ⟨?_, ?_, ?_, rfl⟩
    · simp [complete, h]
    · by_cases ht : titleOpt = some "" <;> simp [update, h, ht]
    · simp [delete, h]
  · refine ⟨?_, ?_, ?_, rfl⟩ <;> simp [complete, update, delete, h]

/-- Claim C6: `update` on a present id with a valid title change succeeds,
rewrites exactly the targeted task through `applyUpdate` (leaving every
other task and `next_id` unchanged), and `applyUpdate` changes only the
fields actually supplied while keeping `id`, `created_at`, `status` and
`completed_at` untouched. -/
theorem c6_update_only_supplied_fields (c : TaskCollection) (i : Nat)
    (titleOpt descOpt : Option String)
    (h1 : hasId c i = true) (h2 : titleOpt ≠ some "") :
    update c i titleOpt descOpt
      = .ok ⟨c.tasks.map (fun t =>
              if t.id == i then applyUpdate t titleOpt descOpt else t),
            c.next_id⟩
    ∧ ∀ t : Task,
        (applyUpdate t titleOpt descOpt).id = t.id
        ∧ (applyUpdate t titleOpt descOpt).created_at = t.created_at
        ∧ (applyUpdate t titleOpt descOpt).status = t.status
        ∧ (applyUpdate t titleOpt descOpt).completed_at = t.completed_at
        ∧ (applyUpdate t none descOpt).title = t.title
        ∧ (applyUpdate t titleOpt none).description = t.description
        ∧ ∀ s : String,
            (applyUpdate t (some s) descOpt).title = s
            ∧ (applyUpdate t titleOpt (some s)).description = s := by
  refine ⟨by simp [update, h1, h2], ?_⟩
  intro t
  cases titleOpt <;> cases descOpt <;>
    exact ⟨rfl, rfl, rfl, rfl, rfl, rfl, fun s => ⟨rfl, rfl⟩⟩

/-- Witness for C6: updating only the title of task 2 in `sampleColl`
changes that title, keeps its description, and touches nothing else. -/
theorem c6_witness :
    hasId sampleColl 2 = true
    ∧ (some "Write better notes" : Option String) ≠ some ""
    ∧ update sampleColl 2 (some "Write better notes") none
        = .ok ⟨[doneTask,
                ⟨2, "Write better notes", "for the release", .Pending,
                 "2026-01-02 10:30:00", none⟩], 3⟩ := by
  refine ⟨rfl, by decide, ?_⟩
  exact (c6_update_only_supplied_fields sampleColl 2 (some "Write better notes")
    none rfl (by decide)).1

/-- Claim C2: deleting a present id removes exactly the task with that id,
keeps every other task verbatim (ids and all fields, in order) and the
`next_id` counter unchanged; the deleted id is below the counter, so a
subsequent successful `add` hands out `next_id`, never the deleted id.  The
second hypothesis is the spec §3 invariant that `next_id` exceeds every
existing id. -/
theorem c2_delete_frame (c : TaskCollection) (i : Nat)
    (h1 : hasId c i = true) (h2 : ∀ t ∈ c.tasks, t.id < c.next_id) :
    delete c i = .ok ⟨c.tasks.filter (fun t => t.id != i), c.next_id⟩
    ∧ i < c.next_id
    ∧ ∀ (title d now : String) (tk : Task) (c2 : TaskCollection),
        add ⟨c.tasks.filter (fun t => t.id != i), c.next_id⟩ title d now
            = .ok (tk, c2) →
          tk.id = c.next_id ∧ tk.id ≠ i := by
  have hlt : i < c.next_id := by
    simp only [hasId, List.any_eq_true, beq_iff_eq] at h1
    obtain ⟨t, hmem, hid⟩ := h1
    exact hid ▸ h2 t hmem
  refine ⟨by simp [delete, h1], hlt, ?_⟩
  intro title d now tk c2 hadd
  have hid : tk.id = c.next_id := (add_ok _ title d now tk c2 hadd).1
  exact ⟨hid, by omega⟩

/-- Witness for C2: deleting task 1 from `sampleColl` keeps task 2 and the
counter intact, and the next added task gets id 3, not the deleted id 1. -/
theorem c2_witness :
    hasId sampleColl 1 = true
    ∧ (∀ t ∈ sampleColl.tasks, t.id < sampleColl.next_id)
    ∧ (delete sampleColl 1
          = .ok ⟨sampleColl.tasks.filter (fun t => t.id != 1),
                 sampleColl.next_id⟩
       ∧ 1 < sampleColl.next_id
       ∧ ∀ (title d now : String) (tk : Task) (c2 : TaskCollection),
           add ⟨sampleColl.tasks.filter (fun t => t.id != 1),
                sampleColl.next_id⟩ title d now = .ok (tk, c2) →
             tk.id = sampleColl.next_id ∧ tk.id ≠ 1) :=
  ⟨rfl, by decide, c2_delete_frame sampleColl 1 rfl (by decide)⟩

/-- Claim C3: `clear` removes all tasks, resets `next_id` to 1 and returns
the number removed; an `add` right after `clear` hands out id 1; and no
other command resets the counter — `complete`, `update` and `delete`
commands leave `next_id` unchanged and an `add` command never lowers it. -/
theorem c3_clear_resets (c : TaskCollection) (title d now : String)
    (h : strip title ≠ "") :
    clear c = (c.tasks.length, emptyCollection)
    ∧ emptyCollection = ⟨[], 1⟩
    ∧ (∃ tk c2, add (clear c).2 title d now = .ok (tk, c2)
        ∧ tk.id = 1 ∧ c2.next_id = 2)
    ∧ (∀ (i : Nat) (now2 : String) (tOpt dOpt : Option String),
        (step c (Op.complete i now2)).next_id = c.next_id
        ∧ (step c (Op.update i tOpt dOpt)).next_id = c.next_id
        ∧ (step c (Op.delete i)).next_id = c.next_id)
    ∧ ∀ t2 d2 n2 : String, c.next_id ≤ (step c (Op.add t2 d2 n2)).next_id := by
  refine ⟨rfl, rfl, ?_, ?_, ?_⟩
  · refine ⟨⟨1, title, d, .Pending, now, none⟩, ⟨[⟨1, title, d, .Pending, now, none⟩], 2⟩, ?_, rfl, rfl⟩
    simp [add, clear, emptyCollection, h]
  · intro i now2 tOpt dOpt
    exact ⟨step_complete_next_id c i now2, step_update_next_id c i tOpt dOpt,
           step_delete_next_id c i⟩
  · intro t2 d2 n2
    exact step_add_next_id c t2 d2 n2

/-- Witness for C3: clearing `sampleColl` removes its 2 tasks, resets the
counter, and the immediately following `add` receives id 1. -/
theorem c3_witness :
    strip "Fresh start" ≠ ""
    ∧ (clear sampleColl = (sampleColl.tasks.length, emptyCollection)
       ∧ emptyCollection = ⟨[], 1⟩
       ∧ (∃ tk c2,
            add (clear sampleColl).2 "Fresh start" "" "2026-02-05 08:00:00"
              = .ok (tk, c2) ∧ tk.id = 1 ∧ c2.next_id = 2)
       ∧ (∀ (i : Nat) (now2 : String) (tOpt dOpt : Option String),
           (step sampleColl (Op.complete i now2)).next_id = sampleColl.next_id
           ∧ (step sampleColl (Op.update i tOpt dOpt)).next_id
               = sampleColl.next_id
           ∧ (step sampleColl (Op.delete i)).next_id = sampleColl.next_id)
       ∧ ∀ t2 d2 n2 : String,
           sampleColl.next_id ≤ (step sampleColl (Op.add t2 d2 n2)).next_id) :=
  ⟨by decide,
   c3_clear_resets sampleColl "Fresh start" "" "2026-02-05 08:00:00" (by decide)⟩

/-- Counterexample for C10: updating the title of `doneTask` — a task whose
status is `Completed` — is not rejected: `update` returns success, edits the
title and leaves the task `Completed` with its old `completed_at`.  The
model's `update` (spec §4.1) checks only existence and title validity, never
status. -/
theorem c10_counterexample :
    doneTask.status = Status.Completed
    ∧ doneTask ∈ doneColl.tasks
    ∧ update doneColl 1 (some "Ship release v2") none
        = .ok ⟨[⟨1, "Ship release v2", "cut the tag", .Completed,
                 "2026-01-01 09:00:00", some "2026-01-03 18:00:00"⟩], 2⟩ :=
  ⟨rfl, by decide, rfl⟩

/-- Claim C10 (amended): `update` on a task whose status is `Completed` is
accepted just as for a pending task: only the supplied fields change and the
task stays `Completed`; completed tasks are not immutable under `update`. -/
theorem c10_completed_task_updatable (c : TaskCollection) (tk : Task)
    (titleOpt descOpt : Option String)
    (hmem : tk ∈ c.tasks) (hstat : tk.status = Status.Completed)
    (hval : titleOpt ≠ some "") :
    update c tk.id titleOpt descOpt
      = .ok ⟨c.tasks.map (fun u =>
              if u.id == tk.id then applyUpdate u titleOpt descOpt else u),
            c.next_id⟩
    ∧ (applyUpdate tk titleOpt descOpt).status = Status.Completed := by
  have h1 : hasId c tk.id = true := by
    simp only [hasId, List.any_eq_true, beq_iff_eq]
    exact ⟨tk, hmem, rfl⟩
  exact ⟨by simp [update, h1, hval], hstat⟩

/-- Witness for C10 (amended): editing the description of the completed
task in `doneColl` succeeds and the task remains `Completed`. -/
theorem c10_witness :
    doneTask ∈ doneColl.tasks
    ∧ doneTask.status = Status.Completed
    ∧ (none : Option String) ≠ some ""
    ∧ (update doneColl doneTask.id none (some "tag v1.0.0 pushed")
          = .ok ⟨doneColl.tasks.map (fun u =>
                  if u.id == doneTask.id then
                    applyUpdate u none (some "tag v1.0.0 pushed")
                  else u),
                doneColl.next_id⟩
       ∧ (applyUpdate doneTask none (some "tag v1.0.0 pushed")).status
           = Status.Completed) :=
  ⟨by decide, rfl, by decide,
   c10_completed_task_updatable doneColl doneTask none (some "tag v1.0.0 pushed")
     (by decide) rfl (by decide)⟩

/-- Helper: appending the next element to an initial segment of the
naturals. -/
theorem range'_snoc (s n : Nat) :
    List.range' s (n + 1) = List.range' s n ++ [s + n] := by
  have h := @List.range'_concat 1 s n
  simpa using h

/-- Helper: along any run, the ids recorded since the most recent `clear`
are exactly `1, 2, ..., next_id - 1`, and the counter stays positive.  This
is the spec §3 invariant driving claim C1. -/
theorem runTrace_inv (ops : List Op) :
    ∀ (c : TaskCollection) (acc : List Nat),
      1 ≤ c.next_id → acc = List.range' 1 (c.next_id - 1) →
        1 ≤ (runTrace c acc ops).1.next_id
        ∧ (runTrace c acc ops).2
            = List.range' 1 ((runTrace c acc ops).1.next_id - 1) := by
  induction ops with
  | nil => exact fun c acc h1 h2 => ⟨h1, h2⟩
  | cons op ops ih =>
      intro c acc h1 h2
      cases op with
      | add t d now =>
          cases hadd : add c t d now with
          | ok p =>
              obtain ⟨tk, c2⟩ := p
              obtain ⟨hid, hn, -⟩ := add_ok c t d now tk c2 hadd
              have hrun : runTrace c acc (Op.add t d now :: ops)
                  = runTrace c2 (acc ++ [tk.id]) ops := by
                simp [runTrace, hadd]
              rw [hrun]
              apply ih
              · omega
              · rw [h2, hid, hn]
                have he : c.next_id + 1 - 1 = (c.next_id - 1) + 1 := by omega
                rw [he, range'_snoc]
                have he2 : 1 + (c.next_id - 1) = c.next_id := by omega
                rw [he2]
          | error e =>
              have hrun : runTrace c acc (Op.add t d now :: ops)
                  = runTrace c acc ops := by
                simp [runTrace, hadd]
              rw [hrun]
              exact ih c acc h1 h2
      | complete i now =>
          have hn := step_complete_next_id c i now
          have hrun : runTrace c acc (Op.complete i now :: ops)
              = runTrace (step c (Op.complete i now)) acc ops := rfl
          rw [hrun]
          exact ih _ acc (by omega) (by rw [hn]; exact h2)
      | update i tOpt dOpt =>
          have hn := step_update_next_id c i tOpt dOpt
          have hrun : runTrace c acc (Op.update i tOpt dOpt :: ops)
              = runTrace (step c (Op.update i tOpt dOpt)) acc ops := rfl
          rw [hrun]
          exact ih _ acc (by omega) (by rw [hn]; exact h2)
      | delete i =>
          have hn := step_delete_next_id c i
          have hrun : runTrace c acc (Op.delete i :: ops)
              = runTrace (step c (Op.delete i)) acc ops := rfl
          rw [hrun]
          exact ih _ acc (by omega) (by rw [hn]; exact h2)
      | clear =>
          have hrun : runTrace c acc (Op.clear :: ops)
              = runTrace emptyCollection [] ops := rfl
          rw [hrun]
          exact ih emptyCollection [] (Nat.le_refl 1) rfl

/-- Claim C1: running any command sequence from the freshly started
application, the ids handed out by successful `add` calls since the most
recent `clear` (the trace accumulator resets exactly at `clear`) are the
consecutive integers `1, 2, ..., next_id - 1`: they start at 1, are
strictly increasing, are never repeated, are all positive, and the counter
`next_id` stays strictly above every one of them. -/
theorem c1_ids_strictly_increasing (ops : List Op) :
    (runTrace emptyCollection [] ops).2
      = List.range' 1 ((runTrace emptyCollection [] ops).1.next_id - 1)
    ∧ (runTrace emptyCollection [] ops).2.Nodup
    ∧ List.Pairwise (fun a b => a < b) (runTrace emptyCollection [] ops).2
    ∧ ∀ i ∈ (runTrace emptyCollection [] ops).2,
        1 ≤ i ∧ i < (runTrace emptyCollection [] ops).1.next_id := by
  obtain ⟨h1, h2⟩ := runTrace_inv ops emptyCollection [] (Nat.le_refl 1) rfl
  refine ⟨h2, ?_, ?_, ?_⟩
  · rw [h2]
    exact List.nodup_range' _ _
  · rw [h2]
    exact List.pairwise_lt_range' _ _
  · intro i hi
    rw [h2, List.mem_range'_1] at hi
    exact ⟨hi.1, by omega⟩

end Todo

